import Mathlib

/-!
Verification of the pagination and response-normalization engine of the
pyinaturalist client library, shallowly embedded in Lean 4.

The embedding follows `pyinaturalist/node_api.py` (the `get_all_observations`
pagination loop and `get_observation`) and `pyinaturalist/v1/observations.py`
(the normalization pipeline of `get_observations` and
`get_observation_taxon_summary`).  The HTTP transport is abstracted as a
function from request parameters to a page of results, exactly as the spec
treats `performRequest` as an external collaborator.  Machine floats of the
coordinate converters are represented by `Rat`; the converters and constants
modules are not part of the provided sources and are modelled from the spec
where needed (each such definition is marked `Modelled from the spec`).
-/

/-- Modelled from the spec: the `PER_PAGE_RESULTS` constant of the missing
`pyinaturalist/constants.py` module; the spec's end-to-end scenario uses a
page size of 500. All claims are stated relative to this constant. -/
def PER_PAGE_RESULTS : Nat := 500

/-- One raw observation record; the pagination loop only ever reads the
numeric `id` field (`results[-1]["id"]` in `get_all_observations`). -/
structure Item where
  id : Nat
  deriving DecidableEq, Repr

/-- The request parameters the pagination loop sends on each fetch:
`get_all_observations` fixes `order_by`, `order` and `per_page` in
`pagination_params` and mutates only `id_above` between fetches. -/
structure ReqParams where
  order_by : String
  order : String
  per_page : Nat
  id_above : Nat
  deriving DecidableEq, Repr

/-- One page of the JSON response: the `results` list
(`page_obs.get("results", [])`) and the server-reported
`total_results` count. -/
structure Page where
  results : List Item
  total_results : Nat
  deriving DecidableEq, Repr

/-- The `pagination_params` dict built by `get_all_observations` with the
current cursor stored under `id_above`. -/
def paginationParams (id_above : Nat) : ReqParams :=
  { order_by := "id", order := "asc", per_page := PER_PAGE_RESULTS, id_above := id_above }

/-- Observable events of one run of the pagination loop: a page fetch with the
parameters sent, and one `sleep(THROTTLING_DELAY)` interval. -/
inductive Event where
  | fetch (p : ReqParams)
  | delay
  deriving DecidableEq, Repr

/-- Outcome of the pagination loop: normal return with the accumulated
items, the uncaught `IndexError` of `results[-1]` on an empty list, or
exhaustion of the step budget (the Python loop has no such budget; a run
that returns `outOfFuel` for every budget is an infinite loop). -/
inductive RunResult where
  | done (items : List Item)
  | indexError
  | outOfFuel
  deriving DecidableEq, Repr

/-- The `while True` loop of `get_all_observations`
(node_api.py lines 122-131), one constructor case per iteration:
set `pagination_params["id_above"]`, fetch the page, append its results,
return the accumulated list if `total_results <= PER_PAGE_RESULTS`,
otherwise sleep and continue with `id_above = results[-1]["id"]`.
The second component is the trace of fetch and delay events. -/
def fetchAllLoop (server : ReqParams → Page) :
    Nat → List Item → Nat → RunResult × List Event
  | 0, _, _ => (RunResult.outOfFuel, [])
  | fuel + 1, results, id_above =>
    if (server (paginationParams id_above)).total_results ≤ PER_PAGE_RESULTS then
      (RunResult.done (results ++ (server (paginationParams id_above)).results),
        [Event.fetch (paginationParams id_above)])
    else
      match (results ++ (server (paginationParams id_above)).results).getLast? with
      | none => (RunResult.indexError, [Event.fetch (paginationParams id_above), Event.delay])
      | some last =>
        ((fetchAllLoop server fuel
            (results ++ (server (paginationParams id_above)).results) last.id).1,
          Event.fetch (paginationParams id_above) :: Event.delay ::
            (fetchAllLoop server fuel
              (results ++ (server (paginationParams id_above)).results) last.id).2)

/-- `get_all_observations` (node_api.py): start the pagination loop with an
empty accumulator and initial cursor `id_above = 0`. -/
def get_all_observations (server : ReqParams → Page) (fuel : Nat) :
    RunResult × List Event :=
  fetchAllLoop server fuel [] 0

/-- The parameters of the fetch events of a trace, in order. -/
def fetches (tr : List Event) : List ReqParams :=
  tr.filterMap fun e =>
    match e with
    | Event.fetch p => some p
    | Event.delay => none

/-- Number of throttling-delay intervals in a trace. -/
def numDelays : List Event → Nat
  | [] => 0
  | Event.delay :: rest => numDelays rest + 1
  | Event.fetch _ :: rest => numDelays rest

/-- A trace of fetches with exactly one delay between each pair of
consecutive fetches and none elsewhere. -/
def interleaveDelays : List ReqParams → List Event
  | [] => []
  | [p] => [Event.fetch p]
  | p :: q :: rest => Event.fetch p :: Event.delay :: interleaveDelays (q :: rest)

/-- A server every one of whose pages is empty while reporting more total
results than the page size. -/
def emptyPageServer : ReqParams → Page :=
  fun _ => { results := [], total_results := PER_PAGE_RESULTS + 1 }

/-- A server answering one single page that already holds everything. -/
def onePageServer : ReqParams → Page :=
  fun _ => { results := [{ id := 1 }], total_results := 1 }

/-- A server that needs two fetches to drain: the first page reports more
total results than the page size, the second completes the run. -/
def twoPageServer : ReqParams → Page :=
  fun p =>
    if p.id_above = 0 then { results := [{ id := 1 }], total_results := PER_PAGE_RESULTS + 1 }
    else { results := [{ id := 2 }], total_results := 1 }

/-- Splitting of a character list on a separator, mirroring the string
splitting the converters perform (`"lat,lng".split(",")` and ISO-8601
field separators). -/
def splitOnChar (sep : Char) : List Char → List (List Char)
  | [] => [[]]
  | c :: cs =>
    if c = sep then [] :: splitOnChar sep cs
    else
      match splitOnChar sep cs with
      | [] => [[c]]
      | g :: gs => (c :: g) :: gs

/-- Best-effort parse of a non-empty all-digit character list. -/
def parseDigits (cs : List Char) : Option Nat :=
  match cs with
  | [] => none
  | _ =>
    if cs.all Char.isDigit then
      some (cs.foldl (fun n c => n * 10 + (c.toNat - 48)) 0)
    else none

/-- Modelled from the spec: the structured timestamp value of the missing
converters module, carrying the instant's calendar fields and, if present,
the original UTC offset (in minutes). -/
structure Timestamp where
  year : Nat
  month : Nat
  day : Nat
  hour : Nat
  minute : Nat
  second : Nat
  offsetMinutes : Option Int
  deriving DecidableEq, BEq, Repr

def parseHMS (cs : List Char) : Option (Nat × Nat × Nat) :=
  match splitOnChar ':' cs with
  | [h, m, s] => do pure (← parseDigits h, ← parseDigits m, ← parseDigits s)
  | _ => none

def parseOffsetMag (cs : List Char) : Option Nat :=
  match splitOnChar ':' cs with
  | [h, m] => do pure ((← parseDigits h) * 60 + (← parseDigits m))
  | _ => none

def parseTimeOfDay (cs : List Char) : Option (Nat × Nat × Nat × Option Int) :=
  match splitOnChar '+' cs with
  | [hms, off] => do
    let (h, m, s) ← parseHMS hms
    let mag ← parseOffsetMag off
    pure (h, m, s, some (mag : Int))
  | _ =>
    match splitOnChar '-' cs with
    | [hms, off] => do
      let (h, m, s) ← parseHMS hms
      let mag ← parseOffsetMag off
      pure (h, m, s, some (-(mag : Int)))
    | _ =>
      match cs.getLast? with
      | some c =>
        if c = 'Z' then do
          let (h, m, s) ← parseHMS cs.dropLast
          pure (h, m, s, some 0)
        else do
          let (h, m, s) ← parseHMS cs
          pure (h, m, s, none)
      | none => none

/-- Modelled from the spec: best-effort ISO-8601 parsing of the missing
converters module; an absent offset leaves the timestamp naive. -/
def parse_iso8601 (s : String) : Option Timestamp :=
  match splitOnChar 'T' s.toList with
  | [d, t] =>
    match splitOnChar '-' d with
    | [y, mo, da] => do
      let y ← parseDigits y
      let mo ← parseDigits mo
      let da ← parseDigits da
      let (h, mi, se, off) ← parseTimeOfDay t
      pure { year := y, month := mo, day := da, hour := h, minute := mi,
             second := se, offsetMinutes := off }
    | _ => none
  | _ => none

/-- Best-effort parse of a signed decimal number into an exact rational
(standing in for the 64-bit float the Python code produces). -/
def parseDecimal (cs : List Char) : Option Rat :=
  let signed : Bool × List Char :=
    match cs with
    | '-' :: rest => (true, rest)
    | _ => (false, cs)
  match splitOnChar '.' signed.2 with
  | [ip] => do
    let n ← parseDigits ip
    pure (if signed.1 then -(n : Rat) else (n : Rat))
  | [ip, fp] => do
    let n ← parseDigits ip
    let f ← parseDigits fp
    let v : Rat := (n : Rat) + (f : Rat) / ((10 : Rat) ^ fp.length)
    pure (if signed.1 then -v else v)
  | _ => none

/-- Parse of a `"lat,lng"` coordinate string into a pair of numbers. -/
def parse_lat_long (s : String) : Option (Rat × Rat) :=
  match splitOnChar ',' s.toList with
  | [a, b] => do pure (← parseDecimal a, ← parseDecimal b)
  | _ => none

/-- A date/time-shaped JSON field: absent/`None`, a raw string, or the
structured timestamp a successful conversion produces. -/
inductive TimeField where
  | null
  | raw (s : String)
  | time (t : Timestamp)
  deriving DecidableEq, BEq, Repr

/-- A coordinate-shaped JSON field: absent/`None`, a raw string, a
two-element numeric sequence, or the converted float pair. -/
inductive LocField where
  | null
  | raw (s : String)
  | seq (lat lng : Rat)
  | pair (lat lng : Rat)
  deriving DecidableEq, Repr

/-- Modelled from the spec: timestamp conversion of the missing converters
module; parse ISO-8601 strings, leave `None` and anything that fails the
pattern unchanged. -/
def convert_timestamp : TimeField → TimeField
  | TimeField.raw s =>
    match parse_iso8601 s with
    | some t => TimeField.time t
    | none => TimeField.raw s
  | TimeField.null => TimeField.null
  | TimeField.time t => TimeField.time t

/-- Modelled from the spec: coordinate conversion of the missing converters
module; accept a `"lat,lng"` string, a two-element sequence or
already-numeric values, produce a float pair, and leave `None` or anything
malformed unchanged — never raising. -/
def convert_lat_long : LocField → LocField
  | LocField.raw s =>
    match parse_lat_long s with
    | some (a, b) => LocField.pair a b
    | none => LocField.raw s
  | LocField.seq a b => LocField.pair a b
  | LocField.null => LocField.null
  | LocField.pair a b => LocField.pair a b

/-- One observation record with the fields the conversion pipeline of
`get_observations` touches. -/
structure Observation where
  id : Nat
  created_at : TimeField
  observed_on : TimeField
  location : LocField
  deriving DecidableEq, Repr

/-- Modelled from the spec: `convert_observation_timestamps` of the missing
converters module, converting the date/time-like fields of one record. -/
def convert_observation_timestamps (observation : Observation) : Observation :=
  { observation with created_at := convert_timestamp observation.created_at,
                     observed_on := convert_timestamp observation.observed_on }

/-- Modelled from the spec: `convert_all_coordinates` of the missing
converters module, converting the coordinate field of every record. -/
def convert_all_coordinates (results : List Observation) : List Observation :=
  results.map fun observation =>
    { observation with location := convert_lat_long observation.location }

/-- Modelled from the spec: `convert_all_timestamps` of the missing
converters module, converting the date/time-like fields of every record. -/
def convert_all_timestamps (results : List Observation) : List Observation :=
  results.map convert_observation_timestamps

/-- The normalization pipeline of `get_observations`
(v1/observations.py lines 151-154): coordinate conversion then timestamp
conversion over the `results` list. -/
def get_observations_normalize (results : List Observation) : List Observation :=
  convert_all_timestamps (convert_all_coordinates results)

/-- The typed not-found error of a single-resource lookup
(`pyinaturalist.exceptions.ObservationNotFound`). -/
inductive APIError where
  | observationNotFound
  deriving DecidableEq, Repr

/-- The JSON body `get_observations` answers for a single-id query. -/
structure ObservationsResponse where
  results : List Observation
  total_results : Nat
  deriving Repr

/-- `get_observation` (node_api.py lines 53-71): look the id up through
`get_observations`, return the first record of a non-empty `results` list
and raise `ObservationNotFound` on an empty one. -/
def get_observation (server_obs : Nat → ObservationsResponse)
    (observation_id : Nat) : Except APIError Observation :=
  match (server_obs observation_id).results with
  | x :: _ => Except.ok x
  | [] => Except.error APIError.observationNotFound

/-- A server with no observation for any id. -/
def obsServerEmpty : Nat → ObservationsResponse :=
  fun _ => { results := [], total_results := 0 }

/-- A generic record with the created/updated timestamps the generic
timestamp conversion touches. -/
structure TaxonRecord where
  place_id : Nat
  created_at : TimeField
  updated_at : TimeField
  deriving DecidableEq, BEq, Repr

/-- Modelled from the spec: `convert_generic_timestamps` of the missing
converters module, returning a new record with the generic date/time-like
fields converted (the spec's design notes rule out in-place mutation). -/
def convert_generic_timestamps (result : TaxonRecord) : TaxonRecord :=
  { result with created_at := convert_timestamp result.created_at,
                updated_at := convert_timestamp result.updated_at }

/-- The parsed JSON body of the taxon-summary endpoint. -/
structure TaxonSummary where
  conservation_status : TaxonRecord
  listed_taxon : TaxonRecord
  wikipedia_summary : String
  deriving Repr

/-- `get_observation_taxon_summary` (v1/observations.py lines 278-303):
the two timestamp-conversion expressions are written with `==`
(comparison), not `=` (assignment), so their values are computed, discarded
and the parsed response is returned as it arrived. -/
def get_observation_taxon_summary (results : TaxonSummary) : TaxonSummary :=
  let _cmp1 :=
    results.conservation_status == convert_generic_timestamps results.conservation_status
  let _cmp2 :=
    results.listed_taxon == convert_generic_timestamps results.listed_taxon
  results

/-- Relation between consecutive fetches: when the earlier fetch returned a
non-empty page, the cursor of the later fetch is the id of the last item of
that page (`id_above = results[-1]["id"]`). -/
def cursorStep (server : ReqParams → Page) (p q : ReqParams) : Prop :=
  (server p).results ≠ [] →
    ∃ last, (server p).results.getLast? = some last ∧ q.id_above = last.id

/-- Relation between consecutive fetches: every item of the later page has a
strictly larger id than every item (hence the maximum id) of the earlier
non-empty page. -/
def keysetStep (server : ReqParams → Page) (p q : ReqParams) : Prop :=
  (server p).results ≠ [] →
    ∀ it1 ∈ (server p).results, ∀ it2 ∈ (server q).results, it1.id < it2.id

/-- A two-page keyset server that honours `id_above` filtering and
ascending-by-id ordering. -/
def idServer : ReqParams → Page :=
  fun p =>
    if p.id_above = 0 then
      { results := [{ id := 1 }, { id := 2 }], total_results := PER_PAGE_RESULTS + 2 }
    else if p.id_above = 2 then
      { results := [{ id := 3 }], total_results := 1 }
    else { results := [], total_results := 0 }

/-- C2: a first page whose reported `total_results` is at most
`PER_PAGE_RESULTS` makes `get_all_observations` return exactly that page's
items after a single fetch, with no throttling delay in the trace. -/
theorem get_all_observations_single_page
    (server : ReqParams → Page) (fuel : Nat) (hfuel : 0 < fuel)
    (htot : (server (paginationParams 0)).total_results ≤ PER_PAGE_RESULTS) :
    get_all_observations server fuel =
      (RunResult.done (server (paginationParams 0)).results,
        [Event.fetch (paginationParams 0)]) ∧
    numDelays (get_all_observations server fuel).2 = 0 ∧
    (fetches (get_all_observations server fuel).2).length = 1 := by
  obtain ⟨n, rfl⟩ : ∃ n, fuel = n + 1 := ⟨fuel - 1, (Nat.succ_pred_eq_of_pos hfuel).symm⟩
  have h : get_all_observations server (n + 1) =
      (RunResult.done (server (paginationParams 0)).results,
        [Event.fetch (paginationParams 0)]) := by
    simp [get_all_observations, fetchAllLoop, htot]
  refine ⟨h, ?_, ?_⟩ <;> rw [h] <;> rfl

/-- C2 witness: a concrete one-page run. -/
theorem get_all_observations_single_page_witness :
    get_all_observations onePageServer 1 =
      (RunResult.done [{ id := 1 }], [Event.fetch (paginationParams 0)]) :=
  (get_all_observations_single_page onePageServer 1 (by decide) (by decide)).1

/-- C10: an empty first page combined with a reported total above
`PER_PAGE_RESULTS` makes `get_all_observations` hit the uncaught
`IndexError` of `results[-1]` on the empty accumulated list. -/
theorem get_all_observations_empty_first_page_index_error
    (server : ReqParams → Page) (fuel : Nat) (hfuel : 0 < fuel)
    (hres : (server (paginationParams 0)).results = [])
    (htot : PER_PAGE_RESULTS < (server (paginationParams 0)).total_results) :
    (get_all_observations server fuel).1 = RunResult.indexError := by
  obtain ⟨n, rfl⟩ : ∃ n, fuel = n + 1 := ⟨fuel - 1, (Nat.succ_pred_eq_of_pos hfuel).symm⟩
  simp [get_all_observations, fetchAllLoop, hres, Nat.not_le.mpr htot]

/-- C10 witness: the concrete always-empty server raises `IndexError`. -/
theorem get_all_observations_empty_first_page_index_error_witness :
    (get_all_observations emptyPageServer 1).1 = RunResult.indexError :=
  get_all_observations_empty_first_page_index_error emptyPageServer 1
    (by decide) (by decide) (by decide)

theorem fetches_fetch_cons (p : ReqParams) (tr : List Event) :
    fetches (Event.fetch p :: tr) = p :: fetches tr := rfl

theorem fetches_delay_cons (tr : List Event) :
    fetches (Event.delay :: tr) = fetches tr := rfl

/-- Helper: when every page of the server reports a total above the page
size, the pagination loop can never return normally, from any loop state:
the only return statement sits under `total_results <= PER_PAGE_RESULTS`. -/
theorem fetchAllLoop_no_done_of_total_gt
    (server : ReqParams → Page)
    (hbig : ∀ p, PER_PAGE_RESULTS < (server p).total_results) :
    ∀ (fuel : Nat) (acc : List Item) (ia : Nat) (items : List Item),
      (fetchAllLoop server fuel acc ia).1 ≠ RunResult.done items := by
  intro fuel
  induction fuel with
  | zero => intro acc ia items; simp [fetchAllLoop]
  | succ n ih =>
    intro acc ia items
    simp only [fetchAllLoop]
    rw [if_neg (Nat.not_le.mpr (hbig _))]
    split
    · simp
    · exact ih _ _ items

/-- C1 counterexample: a server every one of whose pages is empty while
reporting a total above the page size, on which `get_all_observations`
never terminates normally (for no step budget does it return `done`). -/
theorem get_all_observations_empty_page_no_normal_return :
    (∀ p : ReqParams, (emptyPageServer p).results = [] ∧
      PER_PAGE_RESULTS < (emptyPageServer p).total_results) ∧
    ¬ ∃ (fuel : Nat) (items : List Item) (tr : List Event),
        get_all_observations emptyPageServer fuel = (RunResult.done items, tr) := by
  refine ⟨fun p => ⟨rfl, Nat.lt_succ_self PER_PAGE_RESULTS⟩, ?_⟩
  rintro ⟨fuel, items, tr, h⟩
  exact fetchAllLoop_no_done_of_total_gt emptyPageServer
    (fun p => Nat.lt_succ_self PER_PAGE_RESULTS)
    fuel [] 0 items (by rw [get_all_observations] at h; rw [h])

/-- C1 amended: an empty page is not a termination condition of
`get_all_observations`; the loop returns normally only through the
`total_results <= PER_PAGE_RESULTS` test, so on any server all of whose
pages (empty ones included) report a total above the page size the function
never terminates normally. -/
theorem get_all_observations_no_exhausted_on_empty_page
    (server : ReqParams → Page)
    (hbig : ∀ p, PER_PAGE_RESULTS < (server p).total_results)
    (fuel : Nat) (items : List Item) (tr : List Event) :
    get_all_observations server fuel ≠ (RunResult.done items, tr) := by
  intro h
  exact fetchAllLoop_no_done_of_total_gt server hbig fuel [] 0 items
    (by rw [get_all_observations] at h; rw [h])

/-- C1 amended witness: the always-empty big-total server at a concrete
step budget. -/
theorem get_all_observations_no_exhausted_on_empty_page_witness :
    get_all_observations emptyPageServer 3 ≠
      (RunResult.done [], [Event.fetch (paginationParams 0)]) :=
  get_all_observations_no_exhausted_on_empty_page emptyPageServer
    (fun _ => Nat.lt_succ_self PER_PAGE_RESULTS) 3 [] [Event.fetch (paginationParams 0)]

/-- Helper: structure of the trace of every normally-returning run, from any
loop state: the fetch list is non-empty, delays interleave the fetches
exactly, every fetch but the last hit a page whose reported total exceeds
the page size, and the last fetch hit one whose total is within it. -/
theorem fetchAllLoop_done_trace (server : ReqParams → Page) :
    ∀ (fuel : Nat) (acc : List Item) (ia : Nat) (items : List Item) (tr : List Event),
      fetchAllLoop server fuel acc ia = (RunResult.done items, tr) →
      fetches tr ≠ [] ∧ tr = interleaveDelays (fetches tr) ∧
      ∃ ps q, fetches tr = ps ++ [q] ∧
        (∀ p ∈ ps, PER_PAGE_RESULTS < (server p).total_results) ∧
        (server q).total_results ≤ PER_PAGE_RESULTS := by
  intro fuel
  induction fuel with
  | zero => intro acc ia items tr h; simp [fetchAllLoop] at h
  | succ n ih =>
    intro acc ia items tr h
    simp only [fetchAllLoop] at h
    by_cases htot : (server (paginationParams ia)).total_results ≤ PER_PAGE_RESULTS
    · rw [if_pos htot] at h
      have h2 : tr = [Event.fetch (paginationParams ia)] := (congrArg Prod.snd h).symm
      subst h2
      exact ⟨by simp [fetches], rfl, [], paginationParams ia, rfl, by simp, htot⟩
    · rw [if_neg htot] at h
      rcases hlast : (acc ++ (server (paginationParams ia)).results).getLast? with - | last
      · rw [hlast] at h; simp at h
      · rw [hlast] at h
        have h1 : (fetchAllLoop server n
            (acc ++ (server (paginationParams ia)).results) last.id).1 =
            RunResult.done items := congrArg Prod.fst h
        have h2 : tr = Event.fetch (paginationParams ia) :: Event.delay ::
            (fetchAllLoop server n
              (acc ++ (server (paginationParams ia)).results) last.id).2 :=
          (congrArg Prod.snd h).symm
        obtain ⟨hne, hint, ps, q, hsplit, hbig, hsmall⟩ :=
          ih (acc ++ (server (paginationParams ia)).results) last.id items
            (fetchAllLoop server n
              (acc ++ (server (paginationParams ia)).results) last.id).2
            (by rw [← h1])
        subst h2
        rw [fetches_fetch_cons, fetches_delay_cons]
        refine ⟨by simp, ?_, paginationParams ia :: ps, q, by rw [hsplit]; rfl, ?_, hsmall⟩
        · rcases hf : fetches (fetchAllLoop server n
              (acc ++ (server (paginationParams ia)).results) last.id).2 with - | ⟨q', rest'⟩
          · exact absurd hf hne
          · rw [hf] at hint
            rw [interleaveDelays, ← hint]
        · intro p hp
          rcases List.mem_cons.mp hp with rfl | hp
          · exact Nat.not_le.mp htot
          · exact hbig p hp

theorem fetches_interleaveDelays : ∀ ps : List ReqParams,
    fetches (interleaveDelays ps) = ps
  | [] => rfl
  | [_] => rfl
  | p :: q :: rest => by
    rw [interleaveDelays, fetches_fetch_cons, fetches_delay_cons,
      fetches_interleaveDelays (q :: rest)]

theorem numDelays_interleaveDelays : ∀ ps : List ReqParams, ps ≠ [] →
    numDelays (interleaveDelays ps) + 1 = ps.length
  | [], h => absurd rfl h
  | [_], _ => rfl
  | p :: q :: rest, _ => by
    have ihl := numDelays_interleaveDelays (q :: rest) (by simp)
    rw [interleaveDelays]
    simp only [numDelays, List.length_cons] at ihl ⊢
    omega

/-- C4: in every normally-returning run, the trace is the fetch sequence
with exactly one throttling delay between each pair of consecutive fetches
and none before the first, so a run of n fetches has exactly n - 1 delays. -/
theorem get_all_observations_delay_between_fetches
    (server : ReqParams → Page) (fuel : Nat) (items : List Item) (tr : List Event)
    (h : get_all_observations server fuel = (RunResult.done items, tr)) :
    tr = interleaveDelays (fetches tr) ∧
    numDelays tr + 1 = (fetches tr).length := by
  obtain ⟨hne, hint, -⟩ := fetchAllLoop_done_trace server fuel [] 0 items tr h
  refine ⟨hint, ?_⟩
  calc numDelays tr + 1 = numDelays (interleaveDelays (fetches tr)) + 1 := by rw [← hint]
    _ = (fetches tr).length := numDelays_interleaveDelays (fetches tr) hne

/-- C4 witness: the concrete two-page run, whose three-event trace has one
delay strictly between its two fetches. -/
theorem get_all_observations_delay_between_fetches_witness :
    ([Event.fetch (paginationParams 0), Event.delay,
        Event.fetch (paginationParams 1)] : List Event) =
      interleaveDelays (fetches [Event.fetch (paginationParams 0), Event.delay,
        Event.fetch (paginationParams 1)]) ∧
    numDelays [Event.fetch (paginationParams 0), Event.delay,
        Event.fetch (paginationParams 1)] + 1 =
      (fetches [Event.fetch (paginationParams 0), Event.delay,
        Event.fetch (paginationParams 1)]).length :=
  get_all_observations_delay_between_fetches twoPageServer 2
    [{ id := 1 }, { id := 2 }]
    [Event.fetch (paginationParams 0), Event.delay, Event.fetch (paginationParams 1)]
    (by decide)

/-- C5 counterexample: `get_all_observations` is eager, not lazy: on the
concrete two-page server the call performs 2 fetches before returning its
list, so a consumer stopping after k = 1 item of the 2-item result set has
still incurred 2 fetches, exceeding ceil(1 / PER_PAGE_RESULTS) = 1. -/
theorem get_all_observations_not_lazy :
    (get_all_observations twoPageServer 2).1 =
      RunResult.done [{ id := 1 }, { id := 2 }] ∧
    1 < ([{ id := 1 }, { id := 2 }] : List Item).length ∧
    (fetches (get_all_observations twoPageServer 2).2).length = 2 ∧
    ¬ (fetches (get_all_observations twoPageServer 2).2).length ≤
        (1 + PER_PAGE_RESULTS - 1) / PER_PAGE_RESULTS :=
  ⟨by decide, by decide, by decide, by decide⟩

/-- C5 amended: all page fetches of `get_all_observations` happen before the
call returns, and their number is dictated by the server alone, independent
of later consumption: every fetch but the last returns a page whose
reported total exceeds the page size, and the last fetch one within it. -/
theorem get_all_observations_fetch_count_eager
    (server : ReqParams → Page) (fuel : Nat) (items : List Item) (tr : List Event)
    (h : get_all_observations server fuel = (RunResult.done items, tr)) :
    ∃ ps q, fetches tr = ps ++ [q] ∧
      (∀ p ∈ ps, PER_PAGE_RESULTS < (server p).total_results) ∧
      (server q).total_results ≤ PER_PAGE_RESULTS :=
  (fetchAllLoop_done_trace server fuel [] 0 items tr h).2.2

/-- Helper: every request the pagination loop sends is the fixed
`pagination_params` dict at some cursor. -/
theorem mem_fetches_fetchAllLoop (server : ReqParams → Page) :
    ∀ (fuel : Nat) (acc : List Item) (ia : Nat) (q : ReqParams),
      q ∈ fetches (fetchAllLoop server fuel acc ia).2 → ∃ x, q = paginationParams x := by
  intro fuel
  induction fuel with
  | zero => intro acc ia q hq; simp [fetchAllLoop, fetches] at hq
  | succ n ih =>
    intro acc ia q hq
    simp only [fetchAllLoop] at hq
    by_cases htot : (server (paginationParams ia)).total_results ≤ PER_PAGE_RESULTS
    · rw [if_pos htot] at hq
      simp [fetches] at hq
      exact ⟨ia, hq⟩
    · rw [if_neg htot] at hq
      rcases hlast : (acc ++ (server (paginationParams ia)).results).getLast? with - | last
      · rw [hlast] at hq
        simp [fetches] at hq
        exact ⟨ia, hq⟩
      · rw [hlast] at hq
        rw [fetches_fetch_cons, fetches_delay_cons] at hq
        rcases List.mem_cons.mp hq with rfl | hq
        · exact ⟨ia, rfl⟩
        · exact ih _ _ q hq

/-- Helper: the fetch list of a loop run started at cursor `ia` is empty or
starts with the request at cursor `ia`. -/
theorem head_fetches_fetchAllLoop (server : ReqParams → Page)
    (fuel : Nat) (acc : List Item) (ia : Nat) :
    fetches (fetchAllLoop server fuel acc ia).2 = [] ∨
    ∃ rest, fetches (fetchAllLoop server fuel acc ia).2 = paginationParams ia :: rest := by
  cases fuel with
  | zero => exact Or.inl rfl
  | succ n =>
    simp only [fetchAllLoop]
    by_cases htot : (server (paginationParams ia)).total_results ≤ PER_PAGE_RESULTS
    · rw [if_pos htot]; exact Or.inr ⟨[], rfl⟩
    · rw [if_neg htot]
      rcases hlast : (acc ++ (server (paginationParams ia)).results).getLast? with - | last
      · exact Or.inr ⟨[], rfl⟩
      · exact Or.inr ⟨_, rfl⟩

/-- Helper: consecutive fetches of the pagination loop are linked by the
cursor-derivation rule `id_above = results[-1]["id"]`. -/
theorem chain'_cursorStep (server : ReqParams → Page) :
    ∀ (fuel : Nat) (acc : List Item) (ia : Nat),
      List.Chain' (cursorStep server) (fetches (fetchAllLoop server fuel acc ia).2) := by
  intro fuel
  induction fuel with
  | zero => intro acc ia; exact List.chain'_nil
  | succ n ih =>
    intro acc ia
    simp only [fetchAllLoop]
    by_cases htot : (server (paginationParams ia)).total_results ≤ PER_PAGE_RESULTS
    · rw [if_pos htot]; exact List.chain'_singleton _
    · rw [if_neg htot]
      rcases hlast : (acc ++ (server (paginationParams ia)).results).getLast? with - | last
      · exact List.chain'_singleton _
      · rw [fetches_fetch_cons, fetches_delay_cons]
        refine List.chain'_cons'.mpr ⟨?_, ih _ _⟩
        intro y hy
        rcases head_fetches_fetchAllLoop server n
            (acc ++ (server (paginationParams ia)).results) last.id with hemp | ⟨rest, heq⟩
        · rw [hemp] at hy; simp at hy
        · rw [heq] at hy
          simp only [List.head?_cons, Option.mem_def, Option.some.injEq] at hy
          subst hy
          intro hres
          refine ⟨last, ?_, rfl⟩
          rw [← List.getLast?_append_of_ne_nil acc hres]
          exact hlast

/-- Helper: in an ascending-by-id page the last item has the maximal id. -/
theorem sorted_id_le_getLast :
    ∀ l : List Item, l.Sorted (fun a b : Item => a.id ≤ b.id) →
      ∀ x ∈ l, ∀ last, l.getLast? = some last → x.id ≤ last.id := by
  intro l
  induction l with
  | nil => intro _ x hx; simp at hx
  | cons a t ih =>
    intro hs x hx last hlast
    obtain ⟨ha, hs'⟩ := List.sorted_cons.mp hs
    cases t with
    | nil =>
      simp only [List.getLast?_singleton, Option.some.injEq] at hlast
      simp only [List.mem_singleton] at hx
      subst hlast; subst hx
      exact Nat.le_refl _
    | cons b t' =>
      rw [List.getLast?_cons_cons] at hlast
      rcases List.mem_cons.mp hx with rfl | hx
      · obtain ⟨hne', heq'⟩ := List.mem_getLast?_eq_getLast hlast
        exact ha last (heq' ▸ List.getLast_mem hne')
      · exact ih hs' x hx last hlast

/-- Helper: under a server honouring `id_above` filtering and ascending-by-id
ordering, the cursor rule forces every item of the later page past every
item of the earlier one. -/
theorem cursorStep_imp_keysetStep (server : ReqParams → Page)
    (hmono : ∀ p, ∀ it ∈ (server p).results, p.id_above < it.id)
    (hsorted : ∀ p, ((server p).results).Sorted fun a b : Item => a.id ≤ b.id)
    (p q : ReqParams) (hc : cursorStep server p q) : keysetStep server p q := by
  intro hres it1 h1 it2 h2
  obtain ⟨last, hlast, hq⟩ := hc hres
  have h1le : it1.id ≤ last.id := sorted_id_le_getLast _ (hsorted p) it1 h1 last hlast
  have h2gt : q.id_above < it2.id := hmono q it2 h2
  omega

/-- C3: every request of `get_all_observations` carries
`order_by = "id"`, `order = "asc"` and the fixed page size; after every
non-empty page the next cursor is the id of that page's last item; and on a
server honouring these parameters every item of a later page has a strictly
greater id than the maximum id of the preceding page. -/
theorem get_all_observations_id_above_keyset
    (server : ReqParams → Page) (fuel : Nat)
    (hmono : ∀ p, ∀ it ∈ (server p).results, p.id_above < it.id)
    (hsorted : ∀ p, ((server p).results).Sorted fun a b : Item => a.id ≤ b.id) :
    (∀ q ∈ fetches (get_all_observations server fuel).2,
        q.order_by = "id" ∧ q.order = "asc" ∧ q.per_page = PER_PAGE_RESULTS) ∧
    List.Chain' (cursorStep server) (fetches (get_all_observations server fuel).2) ∧
    List.Chain' (keysetStep server) (fetches (get_all_observations server fuel).2) := by
  refine ⟨?_, chain'_cursorStep server fuel [] 0, ?_⟩
  · intro q hq
    obtain ⟨x, rfl⟩ := mem_fetches_fetchAllLoop server fuel [] 0 q hq
    exact ⟨rfl, rfl, rfl⟩
  · exact List.Chain'.imp (cursorStep_imp_keysetStep server hmono hsorted)
      (chain'_cursorStep server fuel [] 0)

/-- C3 witness: the concrete keyset server drained in two fetches. -/
theorem get_all_observations_id_above_keyset_witness :
    (∀ q ∈ fetches (get_all_observations idServer 2).2,
        q.order_by = "id" ∧ q.order = "asc" ∧ q.per_page = PER_PAGE_RESULTS) ∧
    List.Chain' (cursorStep idServer) (fetches (get_all_observations idServer 2).2) ∧
    List.Chain' (keysetStep idServer) (fetches (get_all_observations idServer 2).2) :=
  get_all_observations_id_above_keyset idServer 2
    (by
      intro p it h
      simp only [idServer] at h
      split at h
      · simp at h
        rcases h with rfl | rfl <;> simp [*]
      · split at h
        · simp at h
          subst h
          simp [*]
        · simp at h)
    (by
      intro p
      simp only [idServer]
      split
      · simp [List.sorted_cons]
      · split <;> simp [List.sorted_cons])

/-- C5 amended witness: the concrete two-page run. -/
theorem get_all_observations_fetch_count_eager_witness :
    ∃ ps q, fetches [Event.fetch (paginationParams 0), Event.delay,
        Event.fetch (paginationParams 1)] = ps ++ [q] ∧
      (∀ p ∈ ps, PER_PAGE_RESULTS < (twoPageServer p).total_results) ∧
      (twoPageServer q).total_results ≤ PER_PAGE_RESULTS :=
  get_all_observations_fetch_count_eager twoPageServer 2
    [{ id := 1 }, { id := 2 }]
    [Event.fetch (paginationParams 0), Event.delay, Event.fetch (paginationParams 1)]
    (by decide)

/-- C6: `get_observation` answers the head of a non-empty `results` list
and raises the typed `ObservationNotFound` error exactly when the list is
empty — the error case is never collapsed into an empty return value. -/
theorem get_observation_first_or_not_found
    (server_obs : Nat → ObservationsResponse) (observation_id : Nat) :
    (∀ x rest, (server_obs observation_id).results = x :: rest →
        get_observation server_obs observation_id = Except.ok x) ∧
    (get_observation server_obs observation_id =
        Except.error APIError.observationNotFound ↔
      (server_obs observation_id).results = []) := by
  refine ⟨fun x rest h => by simp [get_observation, h], ?_, fun h => by simp [get_observation, h]⟩
  intro h
  rcases hres : (server_obs observation_id).results with - | ⟨x, rest⟩
  · rfl
  · simp [get_observation, hres] at h

/-- C6 witness: the empty-result lookup raises the typed error. -/
theorem get_observation_first_or_not_found_witness :
    get_observation obsServerEmpty 42 = Except.error APIError.observationNotFound :=
  (get_observation_first_or_not_found obsServerEmpty 42).2.mpr rfl

theorem convert_timestamp_idem (f : TimeField) :
    convert_timestamp (convert_timestamp f) = convert_timestamp f := by
  cases f with
  | null => rfl
  | time t => rfl
  | raw s =>
    cases hp : parse_iso8601 s with
    | none => simp [convert_timestamp, hp]
    | some t => simp [convert_timestamp, hp]

theorem convert_lat_long_idem (f : LocField) :
    convert_lat_long (convert_lat_long f) = convert_lat_long f := by
  cases f with
  | null => rfl
  | seq a b => rfl
  | pair a b => rfl
  | raw s =>
    rcases hp : parse_lat_long s with - | ⟨a, b⟩
    · simp [convert_lat_long, hp]
    · simp [convert_lat_long, hp]

/-- C7: the normalization pipeline of `get_observations` (coordinate then
timestamp conversion) is idempotent: re-normalizing an already-normalized
result list changes nothing — no double conversion occurs. -/
theorem get_observations_normalize_idempotent (results : List Observation) :
    get_observations_normalize (get_observations_normalize results) =
      get_observations_normalize results := by
  simp only [get_observations_normalize, convert_all_timestamps,
    convert_all_coordinates, List.map_map]
  congr 1
  funext o
  simp [Function.comp, convert_observation_timestamps,
    convert_timestamp_idem, convert_lat_long_idem]

/-- C8: coordinate conversion is total and best-effort: the sample string
converts to the exact float pair, `None` stays `None`, and a malformed
string is left unchanged (the converter is a total function and cannot
raise). -/
theorem convert_lat_long_best_effort :
    convert_lat_long (LocField.raw "50.646894,4.360086") =
      LocField.pair (50.646894 : Rat) (4.360086 : Rat) ∧
    convert_lat_long LocField.null = LocField.null ∧
    convert_lat_long (LocField.raw "abc") = LocField.raw "abc" := by
  refine ⟨?_, rfl, rfl⟩
  have h1 : (((50 : Nat) : Rat) + ((646894 : Nat) : Rat) / (10 : Rat) ^ (6 : Nat)) =
      (50.646894 : Rat) := by norm_num
  have h2 : (((4 : Nat) : Rat) + ((360086 : Nat) : Rat) / (10 : Rat) ^ (6 : Nat)) =
      (4.360086 : Rat) := by norm_num
  calc convert_lat_long (LocField.raw "50.646894,4.360086")
      = LocField.pair
          (((50 : Nat) : Rat) + ((646894 : Nat) : Rat) / (10 : Rat) ^ (6 : Nat))
          (((4 : Nat) : Rat) + ((360086 : Nat) : Rat) / (10 : Rat) ^ (6 : Nat)) := rfl
    _ = LocField.pair (50.646894 : Rat) (4.360086 : Rat) := by rw [h1, h2]

/-- C9: `get_observation_taxon_summary` returns the parsed response with
`conservation_status` and `listed_taxon` untouched: the two conversion
expressions are comparisons whose results are discarded. -/
theorem get_observation_taxon_summary_frame (results : TaxonSummary) :
    get_observation_taxon_summary results = results ∧
    (get_observation_taxon_summary results).conservation_status =
      results.conservation_status ∧
    (get_observation_taxon_summary results).listed_taxon = results.listed_taxon :=
  ⟨rfl, rfl, rfl⟩
